import Mathlib

/-!
A verification development for the TutyJuicy pre-order platform: a shallow
embedding of its stock reservation and order lifecycle engine.

The embedding translates, statement by statement, the operative code paths:

* the SQL functions of `database/migrations/008_consolidated_stock_functions.sql`
  (`create_order_atomic`, `restore_stock`, `release_reservation`), which are the
  last (`create or replace`) definitions of these functions in the migration
  sequence and hence the ones the application calls;
* `delete_payment_proof` and `cancel_expired_payment_orders` from
  `database/migrations/011_add_payment_timer.sql`, and the scheduled edge
  function that cancels expired pending orders;
* the client flows that drive them: `CheckoutPage.handleSubmit`,
  `OrderDetailModal.handleStatusConfirm`, `AdminOrderPage.handleBulkUpdate`,
  `AdminBatchPage.handlePublish`, `EditStockModal.handleSubmit`.

Quantities are modelled as `Int`: the `batch_stocks` columns are Postgres
`integer` with no non-negativity check constraint, so negative values are
representable (and, as shown below, reachable).  Database tables are lists of
rows; a SQL `update ... where` is a `List.map` guarded by the `where` clause.
Network calls that can fail are modelled with an explicit failure oracle where
a claim depends on failure behaviour.
-/

namespace TutyJuicy

/-- Order status values of the `orders.status` check constraint. -/
inductive OrderStatus
  | pending_payment
  | payment_received
  | preparing
  | ready
  | picked_up
  | cancelled
deriving DecidableEq, Repr

/-- Batch status values used by the application (`draft`, `open`, `closed`). -/
inductive BatchStatus
  | draft
  | open_
  | closed
deriving DecidableEq, Repr

/-- A row of `batch_stocks`: unique per `(batch_id, menu_id)`. -/
structure StockEntry where
  batch_id : String
  menu_id : String
  quantity_available : Int
  quantity_reserved : Int
deriving DecidableEq, Repr

/-- A row of `batches` (the fields the core flows read). -/
structure Batch where
  id : String
  status : BatchStatus
deriving DecidableEq, Repr

/-- A row of `orders` (the fields the core flows read).  `payment_started_at`
is the timestamp column added by migration 011, in abstract time units. -/
structure Order where
  id : String
  batch_id : String
  status : OrderStatus
  payment_started_at : Option Int
deriving DecidableEq, Repr

/-- A row of `order_items`. -/
structure OrderItem where
  order_id : String
  menu_id : String
  quantity : Int
  price_per_item : Int
deriving DecidableEq, Repr

/-- A row of `payment_proofs` (only the order reference matters to the core). -/
structure PaymentProof where
  order_id : String
deriving DecidableEq, Repr

/-- The persisted state the core operates on. -/
structure DB where
  batches : List Batch
  stocks : List StockEntry
  orders : List Order
  order_items : List OrderItem
  proofs : List PaymentProof
deriving DecidableEq, Repr

/-! ## Stock row mutations (migration 008)

`create_order_atomic` updates a stock row by
`quantity_available = quantity_available - q,
 quantity_reserved = COALESCE(quantity_reserved, 0) + q`;
`restore_stock` by
`quantity_available = quantity_available + q,
 quantity_reserved = GREATEST(0, COALESCE(quantity_reserved, 0) - q)`;
`release_reservation` by
`quantity_reserved = GREATEST(0, COALESCE(quantity_reserved, 0) - q)`.
The `quantity_reserved` column is `not null default 0`, so the `COALESCE`
is the identity. -/

/-- The per-row stock update performed for each item inside
`create_order_atomic` (migration 008): decrease available, increase reserved. -/
def reserveEntry (q : Int) (e : StockEntry) : StockEntry :=
  { e with
    quantity_available := e.quantity_available - q
    quantity_reserved := e.quantity_reserved + q }

/-- The per-row update of `restore_stock` (migration 008): increase available,
decrease reserved clamped at zero. -/
def restoreEntry (q : Int) (e : StockEntry) : StockEntry :=
  { e with
    quantity_available := e.quantity_available + q
    quantity_reserved := max 0 (e.quantity_reserved - q) }

/-- The per-row update of `release_reservation` (migration 008): decrease
reserved clamped at zero, available untouched. -/
def releaseEntry (q : Int) (e : StockEntry) : StockEntry :=
  { e with quantity_reserved := max 0 (e.quantity_reserved - q) }

/-- The SQL statement `update public.batch_stocks set ... where batch_id = b and menu_id = m`,
for an arbitrary per-row update `f`. -/
def updateRows (b m : String) (f : StockEntry → StockEntry)
    (stocks : List StockEntry) : List StockEntry :=
  stocks.map fun e => if e.batch_id == b && e.menu_id == m then f e else e

/-- The stock update of `create_order_atomic` for one item. -/
def reserveRows (b m : String) (q : Int) (stocks : List StockEntry) :
    List StockEntry :=
  updateRows b m (reserveEntry q) stocks

/-- The table-level effect of `restore_stock(b, m, q)`. -/
def restoreRows (b m : String) (q : Int) (stocks : List StockEntry) :
    List StockEntry :=
  updateRows b m (restoreEntry q) stocks

/-- The table-level effect of `release_reservation(b, m, q)`. -/
def releaseRows (b m : String) (q : Int) (stocks : List StockEntry) :
    List StockEntry :=
  updateRows b m (releaseEntry q) stocks

/-- The function `restore_stock` as a whole-database operation. -/
def restore_stock (b m : String) (q : Int) (db : DB) : DB :=
  { db with stocks := restoreRows b m q db.stocks }

/-! ## The Reservation Transaction: `create_order_atomic` (migration 008) and
the checkout flow of `CheckoutPage.handleSubmit` -/

/-- An element of the `p_items` jsonb array passed to `create_order_atomic`:
`{menu_id, quantity, price}`. -/
structure ReqItem where
  menu_id : String
  quantity : Int
  price : Int
deriving DecidableEq, Repr

/-- The SQL function `create_order_atomic` from migration 008 (the last `create or replace` of
this function in the migration sequence, hence the operative one): insert the
order with status `pending_payment`, then for each item insert the order item
and update the stock row (decrease available, increase reserved).  This
version performs no availability check and takes no row lock.  The fresh
order id generated by the database is passed as `oid`. -/
def create_order_atomic (oid : String) (p_batch_id : String)
    (p_items : List ReqItem) (db : DB) : DB :=
  let db1 : DB := { db with orders := db.orders ++
    [⟨oid, p_batch_id, OrderStatus.pending_payment, none⟩] }
  p_items.foldl (fun d it =>
    { d with
      order_items := d.order_items ++
        [⟨oid, it.menu_id, it.quantity, it.price⟩]
      stocks := reserveRows p_batch_id it.menu_id it.quantity d.stocks }) db1

/-- A cart line as held by `CartContext` and submitted by
`CheckoutPage.handleSubmit`. -/
structure CartItem where
  id : String
  name : String
  quantity : Int
  price : Int
deriving DecidableEq, Repr

/-- The failure outcomes of `CheckoutPage.handleSubmit`: no (single) open
batch, the two stock rejections (sold out / not enough left, each naming
products), and the non-positive-total guard. -/
inductive CheckoutError
  | batchNotOpen
  | outOfStock (names : List String)
  | insufficientStock (shortfalls : List (String × Int × Int))
  | invalidTotal
deriving DecidableEq, Repr

/-- The batches returned by `.from('batches').select(...).eq('status', 'open')`. -/
def openBatches (db : DB) : List Batch :=
  db.batches.filter fun b => b.status == BatchStatus.open_

/-- The stock row the client finds for a cart item
(`stockData?.find(s => s.menu_id === cartItem.id)` over the rows fetched for
the open batch). -/
def findStock (db : DB) (b m : String) : Option StockEntry :=
  db.stocks.find? fun e => e.batch_id == b && e.menu_id == m

/-- One iteration of the stock-validation loop in `handleSubmit`, out-of-stock
side: a missing stock row, or `available < quantity` with `available <= 0`,
pushes the item's name onto `outOfStockItems`. -/
def outOfStockName (db : DB) (b : String) (it : CartItem) : Option String :=
  match findStock db b it.id with
  | none => some it.name
  | some st =>
    if st.quantity_available < it.quantity then
      if st.quantity_available ≤ 0 then some it.name else none
    else none

/-- One iteration of the stock-validation loop, insufficient side:
`available < quantity` with `available > 0` pushes
`{name, available, requested}` onto `insufficientStockItems`. -/
def insufficientTriple (db : DB) (b : String) (it : CartItem) :
    Option (String × Int × Int) :=
  match findStock db b it.id with
  | none => none
  | some st =>
    if st.quantity_available < it.quantity then
      if st.quantity_available ≤ 0 then none
      else some (it.name, st.quantity_available, it.quantity)
    else none

/-- The `outOfStockItems` list accumulated by the validation loop. -/
def outOfStockItems (db : DB) (b : String) (items : List CartItem) :
    List String :=
  items.filterMap (outOfStockName db b)

/-- The `insufficientStockItems` list accumulated by the validation loop. -/
def insufficientStockItems (db : DB) (b : String) (items : List CartItem) :
    List (String × Int × Int) :=
  items.filterMap (insufficientTriple db b)

/-- The cart total (`totalPrice` from the cart context). -/
def cartTotal (items : List CartItem) : Int :=
  items.foldl (fun s it => s + it.price * it.quantity) 0

/-- The core of `CheckoutPage.handleSubmit` after form validation, run
sequentially (no interference between its reads and the final RPC): resolve
the single open batch (`.single()` fails on zero or several rows), classify
the cart against the fetched stock, abort on out-of-stock then on
insufficient stock then on a non-positive total, otherwise call
`create_order_atomic`.  The `batchRecheck` read returns the same status in a
sequential run and is subsumed by the first check. -/
def placeOrder (db : DB) (oid : String) (items : List CartItem) :
    DB × Except CheckoutError String :=
  match openBatches db with
  | [b] =>
    let outs := outOfStockItems db b.id items
    let insf := insufficientStockItems db b.id items
    if outs ≠ [] then (db, Except.error (CheckoutError.outOfStock outs))
    else if insf ≠ [] then
      (db, Except.error (CheckoutError.insufficientStock insf))
    else if cartTotal items ≤ 0 then
      (db, Except.error CheckoutError.invalidTotal)
    else
      (create_order_atomic oid b.id
        (items.map fun it => ⟨it.id, it.quantity, it.price⟩) db,
       Except.ok oid)
  | _ => (db, Except.error CheckoutError.batchNotOpen)

/-- The client-side stock validation phase of `handleSubmit` in isolation:
the cart passes when neither rejection list is non-empty. -/
def checkoutPasses (db : DB) (b : String) (items : List CartItem) : Bool :=
  (outOfStockItems db b items).isEmpty &&
    (insufficientStockItems db b items).isEmpty

/-- Two concurrent single-item checkouts, in the interleaving where both
clients run the read-and-validate phase of `handleSubmit` against the same
snapshot before either calls `create_order_atomic`.  The validation reads and
the RPC are separate requests, and the migration-008 `create_order_atomic`
performs no availability check and takes no row lock, so this interleaving is
admissible even with per-statement atomicity at the database. -/
def twoConcurrentCheckouts (db : DB) (b : String) (itA itB : CartItem)
    (oidA oidB : String) : DB × Bool × Bool :=
  let passA := checkoutPasses db b [itA]
  let passB := checkoutPasses db b [itB]
  let db1 := if passA then
    create_order_atomic oidA b [⟨itA.id, itA.quantity, itA.price⟩] db else db
  let db2 := if passB then
    create_order_atomic oidB b [⟨itB.id, itB.quantity, itB.price⟩] db1
    else db1
  (db2, passA, passB)

/-- Concrete database for the insufficient-stock scenario: one open batch,
product `P` with `available = 2`, `reserved = 0`. -/
def c1Db : DB :=
  ⟨[⟨"b1", BatchStatus.open_⟩], [⟨"b1", "P", 2, 0⟩], [], [], []⟩

/-- Concrete cart for the insufficient-stock scenario: quantity 10 of `P`. -/
def c1Items : List CartItem := [⟨"P", "P", 10, 5⟩]

/-- Concrete database for the oversell race: one open batch, one product with
`available = 1`. -/
def c2Db : DB :=
  ⟨[⟨"b1", BatchStatus.open_⟩], [⟨"b1", "m1", 1, 0⟩], [], [], []⟩

/-- Concrete cart line for the oversell race: one unit. -/
def c2Item : CartItem := ⟨"m1", "Juice", 1, 5⟩

/-! ## Order status flows: `OrderDetailModal.handleStatusConfirm`,
`AdminOrderPage.handleBulkUpdate`, cancellation and the timeout sweep -/

/-- Membership test mirroring JavaScript `ids.includes(x)`. -/
def includes (xs : List String) (x : String) : Bool :=
  xs.any fun y => x == y

/-- The order items fetched for one order
(`.from('order_items').select(...).eq('order_id', oid)`). -/
def orderItemsOf (db : DB) (oid : String) : List OrderItem :=
  db.order_items.filter fun i => i.order_id == oid

/-- The SQL statement `update orders set status = st where id = oid`. -/
def setOrderStatus (oid : String) (st : OrderStatus) (db : DB) : DB :=
  { db with orders := db.orders.map fun o =>
      if o.id == oid then { o with status := st } else o }

/-- The SQL function `delete_payment_proof(p_order_id)` from migration 011:
delete every `payment_proofs` row of the order. -/
def delete_payment_proof (oid : String) (db : DB) : DB :=
  { db with proofs := db.proofs.filter fun p => !(p.order_id == oid) }

/-- The handler `OrderDetailModal.handleStatusConfirm` for an order record
`order` and a chosen `pendingStatus`.  When the pending status is
`cancelled`, the order's items are fetched and stock is restored per item,
each `restore_stock` RPC being an independent fallible call —
`restoreFails` says which item's call fails, and a failure is caught, logged
and skipped ("Continue with other items even if one fails") — then the
payment proof is deleted.  Afterwards, in every case and without inspecting
the order's current status, the order row is updated to `pendingStatus`. -/
def handleStatusConfirm (restoreFails : String → Bool) (db : DB)
    (order : Order) (pendingStatus : OrderStatus) : DB :=
  let db1 :=
    if pendingStatus == OrderStatus.cancelled then
      let db2 := (orderItemsOf db order.id).foldl
        (fun d item =>
          if restoreFails item.menu_id then d
          else { d with
            stocks := restoreRows order.batch_id item.menu_id
              item.quantity d.stocks })
        db
      delete_payment_proof order.id db2
    else db
  setOrderStatus order.id pendingStatus db1

/-- The handler `AdminOrderPage.handleBulkUpdate`: `snapshot` is the client's
fetched `orders` list and `ids` the selected order ids.  When cancelling,
every selected snapshot order not already `cancelled` ("Skip if already
cancelled (to avoid double restore)") has its items' stock restored (fallible
per item, failures skipped); then a single statement sets the status of every
selected order row to `newStatus`. -/
def handleBulkUpdate (restoreFails : String → Bool) (db : DB)
    (snapshot : List Order) (ids : List String)
    (newStatus : OrderStatus) : DB :=
  let db1 :=
    if newStatus == OrderStatus.cancelled then
      (snapshot.filter fun o => includes ids o.id).foldl
        (fun d o =>
          if o.status == OrderStatus.cancelled then d
          else (orderItemsOf d o.id).foldl
            (fun d2 item =>
              if restoreFails item.menu_id then d2
              else { d2 with
                stocks := restoreRows o.batch_id item.menu_id
                  item.quantity d2.stocks })
            d)
        db
    else db
  { db1 with orders := db1.orders.map fun o =>
      if includes ids o.id then { o with status := newStatus } else o }

/-- The failure oracle of a run in which every RPC succeeds. -/
def noFailures : String → Bool := fun _ => false

/-! ## Batch publication: `AdminBatchPage.handlePublish` -/

/-- First statement of `handlePublish`:
`update batches set status = closed where status = open`. -/
def closeAllOpen (db : DB) : DB :=
  { db with batches := db.batches.map fun b =>
      if b.status == BatchStatus.open_ then { b with status := BatchStatus.closed }
      else b }

/-- Second statement of `handlePublish`:
`update batches set status = open where id = target`. -/
def openBatchById (id : String) (db : DB) : DB :=
  { db with batches := db.batches.map fun b =>
      if b.id == id then { b with status := BatchStatus.open_ } else b }

/-- The handler `handlePublish` run without interference: its two update
statements in order.  They are two separate requests, not one transaction. -/
def handlePublish (id : String) (db : DB) : DB :=
  openBatchById id (closeAllOpen db)

/-- Number of batches currently `open`. -/
def openCount (db : DB) : Nat :=
  (openBatches db).length

/-! ## Staff stock edit: `EditStockModal.handleSubmit` -/

/-- One line of the `EditStockModal` form: the target menu item, the proposed
new `quantity_available`, and the `quantity_reserved` the modal fetched. -/
structure EditItem where
  menu_id : String
  quantity_available : Int
  quantity_reserved : Int
deriving DecidableEq, Repr

/-- The handler `EditStockModal.handleSubmit` for batch `b`: if any line
proposes `quantity_available < quantity_reserved` the submission is rejected,
naming the invalid items, and nothing is written; otherwise every line's
`quantity_available` is written to its stock row. -/
def editStockSubmit (db : DB) (b : String) (items : List EditItem) :
    DB × Except (List String) Unit :=
  let invalid := items.filter fun i =>
    i.quantity_available < i.quantity_reserved
  if invalid ≠ [] then
    (db, Except.error (invalid.map fun i => i.menu_id))
  else
    ({ db with stocks := items.foldl (fun stks i =>
        updateRows b i.menu_id
          (fun e => { e with quantity_available := i.quantity_available })
          stks) db.stocks },
     Except.ok ())

/-! ## The expired-order sweep (edge function / migration 011) -/

/-- The expiry predicate of the sweep: still `pending_payment`,
`payment_started_at` non-null and more than 15 time units before `now`. -/
def isExpired (now : Int) (o : Order) : Bool :=
  o.status == OrderStatus.pending_payment &&
    match o.payment_started_at with
    | some t => decide (t + 15 < now)
    | none => false

/-- The sweep's payment-proof lookup (`.select('id').eq('order_id', ...)`
with `.single()`): data is non-null exactly when the order has exactly one
proof row. -/
def proofSingle (db : DB) (oid : String) : Bool :=
  (db.proofs.filter fun p => p.order_id == oid).length == 1

/-- Cancelling one expired order inside the sweep: restore the stock of every
item, delete the payment proof, set the order status to `cancelled`. -/
def cancelOneExpired (db : DB) (o : Order) : DB :=
  let db1 := (orderItemsOf db o.id).foldl
    (fun d item => { d with
      stocks := restoreRows o.batch_id item.menu_id
        item.quantity d.stocks }) db
  setOrderStatus o.id OrderStatus.cancelled (delete_payment_proof o.id db1)

/-- The selection phase of the sweep: the expired `pending_payment` orders,
minus those with a payment proof.  Both reads happen against the state
before the cancellation loop. -/
def sweepSelection (now : Int) (db : DB) : List Order :=
  (db.orders.filter (isExpired now)).filter fun o => !proofSingle db o.id

/-- The scheduled sweep: select the expired orders to cancel, then cancel
each one. -/
def sweepExpired (now : Int) (db : DB) : DB :=
  (sweepSelection now db).foldl cancelOneExpired db

/-! ## Concrete scenarios -/

/-- Fulfilment scenario state: stock left at `available = 2, reserved = 3` by
an order of quantity 3 that is still `pending_payment`. -/
def c3Db : DB :=
  ⟨[⟨"b1", BatchStatus.closed⟩], [⟨"b1", "m1", 2, 3⟩],
   [⟨"o1", "b1", OrderStatus.pending_payment, none⟩],
   [⟨"o1", "m1", 3, 5⟩], []⟩

/-- The order record of the fulfilment scenario as held by the admin UI. -/
def c3Order : Order := ⟨"o1", "b1", OrderStatus.pending_payment, none⟩

/-- The fulfilment pipeline: advance the order through
`payment_received → preparing → ready → picked_up` via
`handleStatusConfirm`, every RPC succeeding. -/
def c3Advance : DB :=
  [OrderStatus.payment_received, OrderStatus.preparing, OrderStatus.ready,
    OrderStatus.picked_up].foldl
    (fun d st => handleStatusConfirm noFailures d c3Order st) c3Db

/-- Two draft batches, nothing open. -/
def c4Db : DB :=
  ⟨[⟨"A", BatchStatus.draft⟩, ⟨"B", BatchStatus.draft⟩], [], [], [], []⟩

/-- Cancellation-failure scenario: a `pending_payment` order with two items
(quantities 2 and 3) whose reservations are held in two stock rows. -/
def c5Db : DB :=
  ⟨[⟨"b1", BatchStatus.open_⟩],
   [⟨"b1", "m1", 0, 2⟩, ⟨"b1", "m2", 0, 3⟩],
   [⟨"o1", "b1", OrderStatus.pending_payment, none⟩],
   [⟨"o1", "m1", 2, 5⟩, ⟨"o1", "m2", 3, 5⟩], [⟨"o1"⟩]⟩

/-- The order record of the cancellation-failure scenario. -/
def c5Order : Order := ⟨"o1", "b1", OrderStatus.pending_payment, none⟩

/-- A failure oracle under which the `restore_stock` call for item `m1`
fails (and is swallowed) while every other call succeeds. -/
def failM1 : String → Bool := fun m => m == "m1"

/-- State with an order already `picked_up` (its reservation still held:
`available = 2, reserved = 3`). -/
def c9Db : DB :=
  ⟨[⟨"b1", BatchStatus.closed⟩], [⟨"b1", "m1", 2, 3⟩],
   [⟨"o1", "b1", OrderStatus.picked_up, none⟩],
   [⟨"o1", "m1", 3, 5⟩], []⟩

/-- The picked-up order record as held by the admin UI. -/
def c9Order : Order := ⟨"o1", "b1", OrderStatus.picked_up, none⟩

/-- A cancelled order record, used as a bulk-update snapshot element. -/
def c9CancelledOrder : Order := ⟨"o2", "b1", OrderStatus.cancelled, none⟩

/-- Sweep scenario: one expired `pending_payment` order (payment started at
time 0, swept at time 100) with no proof, holding 3 reserved units. -/
def c6Db : DB :=
  ⟨[⟨"b1", BatchStatus.open_⟩], [⟨"b1", "m1", 2, 3⟩],
   [⟨"o1", "b1", OrderStatus.pending_payment, some 0⟩],
   [⟨"o1", "m1", 3, 5⟩], []⟩

/-- The expired order of the sweep scenario. -/
def c6Order : Order := ⟨"o1", "b1", OrderStatus.pending_payment, some 0⟩

/-- Stock-edit scenario: a row with `reserved = 3`, and a staff edit
proposing `available = 1`. -/
def c8Db : DB :=
  ⟨[⟨"b1", BatchStatus.open_⟩], [⟨"b1", "P", 3, 3⟩], [], [], []⟩

/-- The invalid stock-edit line: new available 1 below reserved 3. -/
def c8Item : EditItem := ⟨"P", 1, 3⟩

lemma restoreEntry_reserveEntry (q : Int) (e : StockEntry)
    (h : 0 ≤ e.quantity_reserved) :
    restoreEntry q (reserveEntry q e) = e := by
  cases e with
  | mk b m qa qr =>
    simp only [restoreEntry, reserveEntry, StockEntry.mk.injEq]
    dsimp only at h
    refine ⟨trivial, trivial, by omega, by omega⟩

lemma updateRows_updateRows (b m : String) (f g : StockEntry → StockEntry)
    (stocks : List StockEntry)
    (hf : ∀ e, (e.batch_id == b && e.menu_id == m) =
      ((f e).batch_id == b && (f e).menu_id == m)) :
    updateRows b m g (updateRows b m f stocks)
      = stocks.map fun e =>
          if e.batch_id == b && e.menu_id == m then g (f e) else e := by
  simp only [updateRows, List.map_map]
  refine List.map_congr_left fun e _ => ?_
  by_cases hc : (e.batch_id == b && e.menu_id == m) = true
  · simp [Function.comp, hc, ← hf e]
  · simp [Function.comp, hc]

/-- C7. `reserve(b,p,q)` (the stock update of `create_order_atomic`) followed
by `restore_stock(b,p,q)` returns every stock row, hence both `available` and
`reserved`, exactly to its pre-reserve value, provided the `reserved ≥ 0`
invariant holds before (and, as the claim assumes, `available ≥ q` on the
targeted rows). -/
theorem c7_reserve_then_restore_roundtrip (b m : String) (q : Int)
    (stocks : List StockEntry)
    (hres : ∀ e ∈ stocks, 0 ≤ e.quantity_reserved)
    (_hav : ∀ e ∈ stocks, e.batch_id = b → e.menu_id = m →
      q ≤ e.quantity_available) :
    restoreRows b m q (reserveRows b m q stocks) = stocks := by
  unfold restoreRows reserveRows
  rw [updateRows_updateRows b m (reserveEntry q) (restoreEntry q) stocks
    (fun e => rfl)]
  have : ∀ e ∈ stocks,
      (if e.batch_id == b && e.menu_id == m
        then restoreEntry q (reserveEntry q e) else e) = e := by
    intro e he
    by_cases hc : (e.batch_id == b && e.menu_id == m) = true
    · simp [hc, restoreEntry_reserveEntry q e (hres e he)]
    · simp [hc]
  calc (stocks.map fun e =>
          if e.batch_id == b && e.menu_id == m
            then restoreEntry q (reserveEntry q e) else e)
      = stocks.map id := List.map_congr_left fun e he => this e he
    _ = stocks := List.map_id stocks

/-- C7 witness: a concrete stock row `(available, reserved) = (5, 2)` and
`q = 3 ≤ 5`; reserve then restore is the identity. -/
theorem c7_witness :
    (∀ e ∈ [StockEntry.mk "b1" "m1" 5 2], 0 ≤ e.quantity_reserved) ∧
    (∀ e ∈ [StockEntry.mk "b1" "m1" 5 2], e.batch_id = "b1" →
      e.menu_id = "m1" → (3 : Int) ≤ e.quantity_available) ∧
    restoreRows "b1" "m1" 3 (reserveRows "b1" "m1" 3
      [StockEntry.mk "b1" "m1" 5 2]) = [StockEntry.mk "b1" "m1" 5 2] :=
  ⟨by decide, by decide,
    c7_reserve_then_restore_roundtrip "b1" "m1" 3 _ (by decide) (by decide)⟩

/-- C10. Calling `restore_stock(batch, menu, q)` on a row whose current
`reserved` value `r` satisfies `0 ≤ r < q` (e.g. a duplicate restore of the
same order item) still adds the full `q` to `available` while `reserved`
clamps to `max 0 (r - q) = 0`, so the nominal total `available + reserved`
grows by `q - r` instead of staying constant; and the clamped row is exactly
what `restore_stock` writes back for that `(batch, menu)` row. -/
theorem c10_restore_overdrain_inflates_total (db : DB) (b m : String)
    (q : Int) (e : StockEntry) (he : e ∈ db.stocks)
    (hb : e.batch_id = b) (hm : e.menu_id = m)
    (_h0 : 0 ≤ e.quantity_reserved) (hlt : e.quantity_reserved < q) :
    (restoreEntry q e).quantity_available = e.quantity_available + q ∧
    (restoreEntry q e).quantity_reserved = max 0 (e.quantity_reserved - q) ∧
    (restoreEntry q e).quantity_reserved = 0 ∧
    ((restoreEntry q e).quantity_available
        + (restoreEntry q e).quantity_reserved)
      - (e.quantity_available + e.quantity_reserved)
      = q - e.quantity_reserved ∧
    restoreEntry q e ∈ (restore_stock b m q db).stocks := by
  refine ⟨rfl, rfl, ?_, ?_, ?_⟩
  · simp only [restoreEntry]; omega
  · simp only [restoreEntry]; omega
  · have hcond : (e.batch_id == b && e.menu_id == m) = true := by
      simp [hb, hm]
    have : restoreEntry q e =
        (fun x => if x.batch_id == b && x.menu_id == m
          then restoreEntry q x else x) e := by
      simp [hcond]
    rw [this]
    exact List.mem_map_of_mem _ he

/-- C10 witness: a row with `reserved = 1`, restored with `q = 3`:
available gains 3, reserved clamps to 0, the total grows by `3 - 1 = 2`. -/
theorem c10_witness :
    (StockEntry.mk "b1" "m1" 4 1 ∈
      (DB.mk [] [StockEntry.mk "b1" "m1" 4 1] [] [] []).stocks) ∧
    (0 : Int) ≤ 1 ∧ (1 : Int) < 3 ∧
    ((restoreEntry 3 (StockEntry.mk "b1" "m1" 4 1)).quantity_available
      = 4 + 3 ∧
     (restoreEntry 3 (StockEntry.mk "b1" "m1" 4 1)).quantity_reserved
      = max 0 (1 - 3) ∧
     (restoreEntry 3 (StockEntry.mk "b1" "m1" 4 1)).quantity_reserved = 0 ∧
     ((restoreEntry 3 (StockEntry.mk "b1" "m1" 4 1)).quantity_available
        + (restoreEntry 3 (StockEntry.mk "b1" "m1" 4 1)).quantity_reserved)
       - (4 + 1) = 3 - 1 ∧
     restoreEntry 3 (StockEntry.mk "b1" "m1" 4 1) ∈
       (restore_stock "b1" "m1" 3
         (DB.mk [] [StockEntry.mk "b1" "m1" 4 1] [] [] [])).stocks) :=
  ⟨by decide, by decide, by decide,
    c10_restore_overdrain_inflates_total
      (DB.mk [] [StockEntry.mk "b1" "m1" 4 1] [] [] []) "b1" "m1" 3
      (StockEntry.mk "b1" "m1" 4 1) (by decide) rfl rfl (by decide)
      (by decide)⟩

lemma insufficientTriple_sound {db : DB} {b : String} {j : CartItem}
    {t : String × Int × Int} (h : insufficientTriple db b j = some t) :
    t.2.1 < t.2.2 ∧ 0 < t.2.1 := by
  unfold insufficientTriple at h
  split at h
  · cases h
  · split at h
    · split at h
      · cases h
      · rename_i st h1 h2
        cases h
        dsimp only
        exact ⟨h1, by omega⟩
    · cases h

lemma insufficientTriple_of_short {db : DB} {b : String} {it : CartItem}
    {e : StockEntry} (he : findStock db b it.id = some e)
    (hlt : e.quantity_available < it.quantity)
    (hpos : 0 < e.quantity_available) :
    insufficientTriple db b it
      = some (it.name, e.quantity_available, it.quantity) := by
  have h2 : ¬e.quantity_available ≤ 0 := by omega
  unfold insufficientTriple
  rw [he]
  simp [hlt, h2]

/-- C1. In a sequential run of the checkout (`handleSubmit` composed with
`create_order_atomic`), if some requested line's available is below its
requested quantity, the whole operation aborts with one of the two stock
rejections — leaving the database exactly as it was (no order row, no order
items, no stock mutation) — and the rejection names only genuinely offending
products; whenever the insufficient-stock rejection fires, every reported
triple records the product name, its remaining `available`, and the requested
quantity (the shortfall data), and the hypothesised short line is reported
with its own numbers when its `available` is positive. -/
theorem c1_insufficient_stock_aborts (db : DB) (oid : String)
    (items : List CartItem) (b : Batch) (it : CartItem) (e : StockEntry)
    (hb : openBatches db = [b]) (hit : it ∈ items)
    (he : findStock db b.id it.id = some e)
    (hlt : e.quantity_available < it.quantity) :
    (placeOrder db oid items).1 = db ∧
    ((∃ ns, ns ≠ [] ∧
        (placeOrder db oid items).2
          = Except.error (CheckoutError.outOfStock ns) ∧
        ∀ n ∈ ns, ∃ j ∈ items, outOfStockName db b.id j = some n) ∨
     (∃ ts, ts ≠ [] ∧
        (placeOrder db oid items).2
          = Except.error (CheckoutError.insufficientStock ts) ∧
        (0 < e.quantity_available →
          (it.name, e.quantity_available, it.quantity) ∈ ts) ∧
        ∀ t ∈ ts, (∃ j ∈ items, insufficientTriple db b.id j = some t) ∧
          t.2.1 < t.2.2 ∧ 0 < t.2.1)) := by
  by_cases ho : outOfStockItems db b.id items = []
  · -- out-of-stock list empty: the offending line must be in the
    -- insufficient list, so its `available` is positive.
    have hpos : 0 < e.quantity_available := by
      by_contra hno
      push_neg at hno
      have hsome : outOfStockName db b.id it = some it.name := by
        unfold outOfStockName
        rw [he]
        simp [hlt, hno]
      have : it.name ∈ outOfStockItems db b.id items :=
        List.mem_filterMap.mpr ⟨it, hit, hsome⟩
      rw [ho] at this
      cases this
    have hmem : (it.name, e.quantity_available, it.quantity)
        ∈ insufficientStockItems db b.id items :=
      List.mem_filterMap.mpr ⟨it, hit, insufficientTriple_of_short he hlt hpos⟩
    have hne : insufficientStockItems db b.id items ≠ [] := by
      intro hc; rw [hc] at hmem; cases hmem
    have hres : placeOrder db oid items
        = (db, Except.error (CheckoutError.insufficientStock
            (insufficientStockItems db b.id items))) := by
      simp only [placeOrder, hb]
      simp [ho, hne]
    refine ⟨by rw [hres], Or.inr
      ⟨insufficientStockItems db b.id items, hne, by rw [hres],
        fun _ => hmem, fun t ht => ?_⟩⟩
    obtain ⟨j, hj, hjt⟩ := List.mem_filterMap.mp ht
    exact ⟨⟨j, hj, hjt⟩, insufficientTriple_sound hjt⟩
  · have hres : placeOrder db oid items
        = (db, Except.error (CheckoutError.outOfStock
            (outOfStockItems db b.id items))) := by
      simp only [placeOrder, hb]
      simp [ho]
    refine ⟨by rw [hres], Or.inl
      ⟨outOfStockItems db b.id items, ho, by rw [hres], fun n hn => ?_⟩⟩
    obtain ⟨j, hj, hjn⟩ := List.mem_filterMap.mp hn
    exact ⟨j, hj, hjn⟩

/-- C1 witness: placing an order for quantity 10 of `P` against
`available = 2` is rejected with the insufficient-stock error carrying
`(P, 10 requested, 2 available)` and the database is unchanged: no order row,
no items, no stock mutation. -/
theorem c1_witness :
    (placeOrder c1Db "o1" c1Items).1 = c1Db ∧
    (placeOrder c1Db "o1" c1Items).2
      = Except.error (CheckoutError.insufficientStock [("P", 2, 10)]) :=
  ⟨(c1_insufficient_stock_aborts c1Db "o1" c1Items
      ⟨"b1", BatchStatus.open_⟩ ⟨"P", "P", 10, 5⟩ ⟨"b1", "P", 2, 0⟩
      (by decide) (by decide) (by decide) (by decide)).1,
   by rfl⟩

/-- C2, evaluated at the failing input.  With `available = 1` and two
concurrent one-unit checkouts whose validation reads both happen before
either commit, both attempts pass validation and both orders are created:
`create_order_atomic` (migration 008) applies the decrement unconditionally,
so the final stock row is `available = -1, reserved = 2` — both succeed
instead of exactly one, and the postcondition `available = 0` fails. -/
theorem c2_oversell_both_succeed :
    (twoConcurrentCheckouts c2Db "b1" c2Item c2Item "oA" "oB").2
      = (true, true) ∧
    (twoConcurrentCheckouts c2Db "b1" c2Item c2Item "oA" "oB").1.stocks
      = [⟨"b1", "m1", -1, 2⟩] ∧
    ((twoConcurrentCheckouts c2Db "b1" c2Item c2Item "oA" "oB").1.orders.map
        Order.status)
      = [OrderStatus.pending_payment, OrderStatus.pending_payment] := by
  decide

lemma countP_beq_le_one_of_nodup (l : List String) (hl : l.Nodup)
    (x : String) : l.countP (fun y => y == x) ≤ 1 := by
  induction l with
  | nil => simp
  | cons a l ih =>
    rw [List.countP_cons]
    rcases List.nodup_cons.mp hl with ⟨ha, hl'⟩
    by_cases hax : a = x
    · subst hax
      have hzero : l.countP (fun y => y == a) = 0 := by
        rw [List.countP_eq_zero]
        intro y hy
        simp only [beq_iff_eq]
        intro hya
        exact ha (hya ▸ hy)
      simp [hzero]
    · have : ((fun y => y == x) a : Bool) = false := by simp [hax]
      simp only [this]
      simpa using ih hl'

lemma foldl_fixed {α β : Type} (step : β → α → β) :
    ∀ (L : List α) (b : β), (∀ x ∈ L, ∀ c, step c x = c) →
      L.foldl step b = b := by
  intro L
  induction L with
  | nil => intro b _; rfl
  | cons a L ih =>
    intro b h
    simp only [List.foldl_cons]
    rw [h a (by simp) b]
    exact ih b fun x hx c => h x (by simp [hx]) c

lemma foldl_stocks_proj {α : Type} (cond : α → Bool)
    (g : α → List StockEntry → List StockEntry) :
    ∀ (L : List α) (db : DB),
      (L.foldl (fun d i => if cond i then d
        else { d with stocks := g i d.stocks }) db).stocks
        = L.foldl (fun s i => if cond i then s else g i s) db.stocks := by
  intro L
  induction L with
  | nil => intro db; rfl
  | cons a L ih =>
    intro db
    simp only [List.foldl_cons]
    by_cases hc : cond a = true
    · rw [if_pos hc, if_pos hc]
      exact ih db
    · rw [if_neg (by simp [hc]), if_neg (by simp [hc])]
      exact ih { db with stocks := g a db.stocks }

lemma foldl_stocks_proj_projs {α : Type} (cond : α → Bool)
    (g : α → List StockEntry → List StockEntry) :
    ∀ (L : List α) (db : DB),
      ((L.foldl (fun d i => if cond i then d
          else { d with stocks := g i d.stocks }) db).batches = db.batches ∧
       (L.foldl (fun d i => if cond i then d
          else { d with stocks := g i d.stocks }) db).orders = db.orders ∧
       (L.foldl (fun d i => if cond i then d
          else { d with stocks := g i d.stocks }) db).order_items
          = db.order_items ∧
       (L.foldl (fun d i => if cond i then d
          else { d with stocks := g i d.stocks }) db).proofs = db.proofs) := by
  intro L
  induction L with
  | nil => intro db; exact ⟨rfl, rfl, rfl, rfl⟩
  | cons a L ih =>
    intro db
    simp only [List.foldl_cons]
    by_cases hc : cond a = true
    · rw [if_pos hc]
      exact ih db
    · rw [if_neg (by simp [hc])]
      exact ih { db with stocks := g a db.stocks }

lemma handleStatusConfirm_orders (F : String → Bool) (db : DB) (o : Order)
    (st : OrderStatus) :
    (handleStatusConfirm F db o st).orders
      = db.orders.map fun p =>
          if p.id == o.id then { p with status := st } else p := by
  by_cases hc : st = OrderStatus.cancelled
  · subst hc
    have h := (foldl_stocks_proj_projs (fun i => F i.menu_id)
      (fun i s => restoreRows o.batch_id i.menu_id i.quantity s)
      (orderItemsOf db o.id) db).2.1
    simp only [handleStatusConfirm, beq_self_eq_true, if_true,
      setOrderStatus, delete_payment_proof]
    rw [h]
  · have hbe : (st == OrderStatus.cancelled) = false := by
      simp [hc]
    simp only [handleStatusConfirm, hbe, Bool.false_eq_true, if_false,
      setOrderStatus]

lemma handleStatusConfirm_cancel_proofs (F : String → Bool) (db : DB)
    (o : Order) :
    (handleStatusConfirm F db o OrderStatus.cancelled).proofs
      = db.proofs.filter fun p => !(p.order_id == o.id) := by
  have h := (foldl_stocks_proj_projs (fun i => F i.menu_id)
    (fun i s => restoreRows o.batch_id i.menu_id i.quantity s)
    (orderItemsOf db o.id) db).2.2.2
  simp only [handleStatusConfirm, beq_self_eq_true, if_true,
    setOrderStatus, delete_payment_proof]
  rw [h]

lemma handleStatusConfirm_cancel_stocks (F : String → Bool) (db : DB)
    (o : Order) :
    (handleStatusConfirm F db o OrderStatus.cancelled).stocks
      = (orderItemsOf db o.id).foldl
          (fun s i => if F i.menu_id then s
            else restoreRows o.batch_id i.menu_id i.quantity s) db.stocks := by
  have h := foldl_stocks_proj (fun i => F i.menu_id)
    (fun i s => restoreRows o.batch_id i.menu_id i.quantity s)
    (orderItemsOf db o.id) db
  simp only [handleStatusConfirm, beq_self_eq_true, if_true,
    setOrderStatus, delete_payment_proof]
  exact h

/-- C3, evaluated at the scenario state.  Starting from
`available = 2, reserved = 3` held by an order of quantity 3, advancing the
order `pending_payment → payment_received → preparing → ready → picked_up`
through `handleStatusConfirm` leaves the stock row at
`available = 2, reserved = 3`: none of these transitions touches the ledger,
and `release_reservation` — whose own comment says it is called when an
order is completed — has no caller, so the reservation is never released
(the claim expects `reserved = 0` at the end). -/
theorem c3_fulfilment_never_releases :
    c3Advance.stocks = [⟨"b1", "m1", 2, 3⟩] ∧
    c3Advance.orders.map Order.status = [OrderStatus.picked_up] := by
  decide

/-- C4 counterexample.  `handlePublish` issues its close-all-open and
open-target writes as two separate statements, not one transaction, so two
concurrent publishes (of batches `A` and `B`) may interleave as
close, close, open `A`, open `B` — each step one of the code's single-row /
single-statement updates — after which two batches are simultaneously open,
refuting the claim that no such state is ever observable. -/
theorem c4_counterexample_two_open :
    openCount (openBatchById "B" (openBatchById "A"
      (closeAllOpen (closeAllOpen c4Db)))) = 2 := by
  decide

/-- C4 amended: a single uninterleaved `handlePublish` never exhibits two
open batches at either of its two observable points — after the first
statement no batch is open, and after the second at most the target is
open — but the two statements are separate transactions (concurrent
publishes can therefore produce two open batches, as the counterexample
shows). -/
theorem c4_amended_solo_publish_at_most_one_open (db : DB) (id : String)
    (hnd : (db.batches.map Batch.id).Nodup) :
    openCount (closeAllOpen db) = 0 ∧
    openCount (handlePublish id db) ≤ 1 := by
  constructor
  · have h : List.filter (fun b => b.status == BatchStatus.open_)
        (db.batches.map fun b => if b.status == BatchStatus.open_
          then { b with status := BatchStatus.closed } else b) = [] := by
      apply List.filter_eq_nil_iff.mpr
      intro b hb
      obtain ⟨a, _, rfl⟩ := List.mem_map.mp hb
      by_cases hs : a.status = BatchStatus.open_ <;> simp [hs]
    simp only [openCount, openBatches, closeAllOpen]
    rw [h]
    rfl
  · simp only [openCount, openBatches, handlePublish, openBatchById,
      closeAllOpen, List.map_map]
    rw [← List.countP_eq_length_filter, List.countP_map]
    have hpt : ∀ b ∈ db.batches,
        ((fun x => x.status == BatchStatus.open_) ∘
          ((fun x => if x.id == id then { x with status := BatchStatus.open_ }
              else x) ∘
           (fun x => if x.status == BatchStatus.open_
              then { x with status := BatchStatus.closed } else x))) b
          = (b.id == id) := by
      intro b _
      by_cases hid : b.id = id <;> by_cases hs : b.status = BatchStatus.open_
        <;> simp [Function.comp_def, hid, hs]
    rw [List.countP_congr (fun x hx => by rw [hpt x hx])]
    have : db.batches.countP (fun b => b.id == id)
        = (db.batches.map Batch.id).countP (fun y => y == id) := by
      rw [List.countP_map]
      rfl
    rw [this]
    exact countP_beq_le_one_of_nodup (db.batches.map Batch.id) hnd id

/-- C4 amended witness: publishing batch `A` over a two-draft-batch state
leaves zero open batches after the first statement and at most one at the
end. -/
theorem c4_amended_witness :
    (c4Db.batches.map Batch.id).Nodup ∧
    (openCount (closeAllOpen c4Db) = 0 ∧
      openCount (handlePublish "A" c4Db) ≤ 1) :=
  ⟨by decide, c4_amended_solo_publish_at_most_one_open c4Db "A" (by decide)⟩

/-- C5 counterexample.  Cancelling a two-item order through
`handleStatusConfirm` when the `restore_stock` call for the first item fails
(the failure is caught and skipped) restores the second item only, yet still
deletes the payment proof and sets the status to `cancelled`: stock is left
partially restored, refuting per-order atomicity. -/
theorem c5_counterexample_partial_restore :
    (handleStatusConfirm failM1 c5Db c5Order OrderStatus.cancelled).stocks
      = [⟨"b1", "m1", 0, 2⟩, ⟨"b1", "m2", 3, 0⟩] ∧
    (handleStatusConfirm failM1 c5Db c5Order
        OrderStatus.cancelled).orders.map Order.status
      = [OrderStatus.cancelled] ∧
    (handleStatusConfirm failM1 c5Db c5Order OrderStatus.cancelled).proofs
      = [] := by
  decide

/-- C5 amended: cancellation is not atomic per order.  For every failure
oracle `F`, `handleStatusConfirm` sets the order's status to `cancelled` and
deletes its payment proof regardless of which restore calls fail, and the
resulting stock table is the one obtained by applying each item's restore
independently, skipping exactly the items whose call failed — so one failing
restore leaves the others applied (stock partially restored) rather than
rolling the order's compensation back. -/
theorem c5_amended_cancellation_not_atomic (F : String → Bool) (db : DB)
    (o : Order) :
    (handleStatusConfirm F db o OrderStatus.cancelled).orders
      = db.orders.map (fun p => if p.id == o.id
          then { p with status := OrderStatus.cancelled } else p) ∧
    (handleStatusConfirm F db o OrderStatus.cancelled).proofs
      = db.proofs.filter (fun p => !(p.order_id == o.id)) ∧
    (handleStatusConfirm F db o OrderStatus.cancelled).stocks
      = (orderItemsOf db o.id).foldl
          (fun s i => if F i.menu_id then s
            else restoreRows o.batch_id i.menu_id i.quantity s) db.stocks :=
  ⟨handleStatusConfirm_orders F db o OrderStatus.cancelled,
   handleStatusConfirm_cancel_proofs F db o,
   handleStatusConfirm_cancel_stocks F db o⟩

/-- C8.  A staff stock edit proposing a new `quantity_available` below the
line's `quantity_reserved` is rejected — `EditStockModal.handleSubmit`
returns before issuing any update, naming the offending item — and the
database is unchanged. -/
theorem c8_invalid_edit_rejected (db : DB) (b : String)
    (items : List EditItem) (i : EditItem) (hi : i ∈ items)
    (hbad : i.quantity_available < i.quantity_reserved) :
    (editStockSubmit db b items).1 = db ∧
    ∃ ns, (editStockSubmit db b items).2 = Except.error ns ∧
      i.menu_id ∈ ns := by
  have hinv : i ∈ items.filter
      (fun j => decide (j.quantity_available < j.quantity_reserved)) :=
    List.mem_filter.mpr ⟨hi, by simp [hbad]⟩
  have hne : items.filter
      (fun j => decide (j.quantity_available < j.quantity_reserved))
        ≠ [] := by
    intro hc; rw [hc] at hinv; cases hinv
  have hres : editStockSubmit db b items
      = (db, Except.error ((items.filter
          (fun j => decide (j.quantity_available < j.quantity_reserved))).map
            fun i => i.menu_id)) := by
    simp only [editStockSubmit]
    rw [if_pos hne]
  refine ⟨by rw [hres], ⟨_, by rw [hres], ?_⟩⟩
  exact List.mem_map_of_mem _ hinv

/-- C8 witness: `setAvailable(P, 1)` while `reserved = 3` is rejected and
the stock table is untouched. -/
theorem c8_witness :
    (editStockSubmit c8Db "b1" [c8Item]).1 = c8Db ∧
    (editStockSubmit c8Db "b1" [c8Item]).2 = Except.error ["P"] :=
  ⟨(c8_invalid_edit_rejected c8Db "b1" [c8Item] c8Item (by decide)
      (by decide)).1,
   by rfl⟩

/-- C9 counterexample.  Cancelling an order whose current status is
`picked_up` through `handleStatusConfirm` is not rejected: no
transition-validation code exists, so the restore loop runs (inflating the
pool: the row goes from `available = 2, reserved = 3` to `5, 0`) and the
status is silently set to `cancelled` — refuting both the
`IllegalStatusTransition` rejection and the no-double-compensation claim for
this path. -/
theorem c9_counterexample_cancel_picked_up :
    (handleStatusConfirm noFailures c9Db c9Order
        OrderStatus.cancelled).orders.map Order.status
      = [OrderStatus.cancelled] ∧
    (handleStatusConfirm noFailures c9Db c9Order OrderStatus.cancelled).stocks
      = [⟨"b1", "m1", 5, 0⟩] := by
  decide

/-- C9 amended: the code performs no transition validation —
`handleStatusConfirm` applies any requested status to the order row whatever
its current status (there is no `IllegalStatusTransition` anywhere);
the only double-restore guard is in the bulk path, which skips snapshot
orders already `cancelled`, so a bulk cancel over an all-cancelled snapshot
leaves the stock table untouched. -/
theorem c9_amended_no_validation (F : String → Bool) (db : DB) (o : Order)
    (st : OrderStatus) (snapshot : List Order) (ids : List String)
    (hsnap : ∀ p ∈ snapshot, p.status = OrderStatus.cancelled) :
    (handleStatusConfirm F db o st).orders
      = db.orders.map (fun p => if p.id == o.id
          then { p with status := st } else p) ∧
    (handleBulkUpdate F db snapshot ids OrderStatus.cancelled).stocks
      = db.stocks := by
  refine ⟨handleStatusConfirm_orders F db o st, ?_⟩
  have hfix : ((snapshot.filter fun o => includes ids o.id).foldl
      (fun d o =>
        if o.status == OrderStatus.cancelled then d
        else (orderItemsOf d o.id).foldl
          (fun d2 item =>
            if F item.menu_id then d2
            else { d2 with
              stocks := restoreRows o.batch_id item.menu_id
                item.quantity d2.stocks })
          d)
      db) = db := by
    apply foldl_fixed
    intro x hx c
    have hxs : x.status = OrderStatus.cancelled :=
      hsnap x (List.mem_filter.mp hx).1
    simp [hxs]
  simp only [handleBulkUpdate, beq_self_eq_true, if_true]
  rw [hfix]

/-- C9 amended witness: cancelling a `picked_up` order applies the status
unconditionally, and a bulk cancel whose snapshot holds only a cancelled
order does not touch stock. -/
theorem c9_amended_witness :
    (∀ p ∈ [c9CancelledOrder], p.status = OrderStatus.cancelled) ∧
    ((handleStatusConfirm noFailures c9Db c9Order OrderStatus.cancelled).orders
       = c9Db.orders.map (fun p => if p.id == c9Order.id
           then { p with status := OrderStatus.cancelled } else p) ∧
     (handleBulkUpdate noFailures c9Db [c9CancelledOrder] ["o2"]
         OrderStatus.cancelled).stocks = c9Db.stocks) :=
  ⟨by decide,
   c9_amended_no_validation noFailures c9Db c9Order OrderStatus.cancelled
     [c9CancelledOrder] ["o2"] (by decide)⟩

@[simp] lemma includes_nil (x : String) : includes [] x = false := rfl

@[simp] lemma includes_cons (y : String) (ys : List String) (x : String) :
    includes (y :: ys) x = ((x == y) || includes ys x) := rfl

lemma includes_map_id_of_mem {L : List Order} {o : Order} (h : o ∈ L) :
    includes (L.map Order.id) o.id = true := by
  induction L with
  | nil => cases h
  | cons a L ih =>
    rcases List.mem_cons.mp h with rfl | hmem
    · simp
    · simp [ih hmem]

lemma foldl_stocks_upd_projs {α : Type}
    (g : α → List StockEntry → List StockEntry) :
    ∀ (L : List α) (db : DB),
      ((L.foldl (fun d i => { d with stocks := g i d.stocks }) db).batches
          = db.batches ∧
       (L.foldl (fun d i => { d with stocks := g i d.stocks }) db).orders
          = db.orders ∧
       (L.foldl (fun d i => { d with stocks := g i d.stocks }) db).order_items
          = db.order_items ∧
       (L.foldl (fun d i => { d with stocks := g i d.stocks }) db).proofs
          = db.proofs) := by
  intro L
  induction L with
  | nil => intro db; exact ⟨rfl, rfl, rfl, rfl⟩
  | cons a L ih =>
    intro db
    simp only [List.foldl_cons]
    exact ih { db with stocks := g a db.stocks }

lemma cancelOneExpired_orders (db : DB) (o : Order) :
    (cancelOneExpired db o).orders
      = db.orders.map fun p => if p.id == o.id
          then { p with status := OrderStatus.cancelled } else p := by
  have h := (foldl_stocks_upd_projs
    (fun (item : OrderItem) s => restoreRows o.batch_id item.menu_id
      item.quantity s) (orderItemsOf db o.id) db).2.1
  simp only [cancelOneExpired, setOrderStatus, delete_payment_proof]
  rw [h]

lemma cancelOneExpired_proofs (db : DB) (o : Order) :
    (cancelOneExpired db o).proofs
      = db.proofs.filter fun p => !(p.order_id == o.id) := by
  have h := (foldl_stocks_upd_projs
    (fun (item : OrderItem) s => restoreRows o.batch_id item.menu_id
      item.quantity s) (orderItemsOf db o.id) db).2.2.2
  simp only [cancelOneExpired, setOrderStatus, delete_payment_proof]
  rw [h]

lemma sweepFold_orders (L : List Order) :
    ∀ db : DB, (L.foldl cancelOneExpired db).orders
      = db.orders.map fun p => if includes (L.map Order.id) p.id
          then { p with status := OrderStatus.cancelled } else p := by
  induction L with
  | nil =>
    intro db
    simp
  | cons a L ih =>
    intro db
    simp only [List.foldl_cons]
    rw [ih (cancelOneExpired db a), cancelOneExpired_orders, List.map_map]
    apply List.map_congr_left
    intro p _
    cases p with
    | mk pid pbatch pstatus ppay =>
      by_cases hpa : pid = a.id
      · simp [Function.comp_def, hpa]
      · simp [Function.comp_def, hpa]

lemma sweepFold_proofs (L : List Order) :
    ∀ db : DB, (L.foldl cancelOneExpired db).proofs
      = db.proofs.filter fun p =>
          !(includes (L.map Order.id) p.order_id) := by
  induction L with
  | nil =>
    intro db
    simp
  | cons a L ih =>
    intro db
    simp only [List.foldl_cons]
    rw [ih (cancelOneExpired db a), cancelOneExpired_proofs,
      List.filter_filter]
    apply List.filter_congr
    intro p _
    by_cases hpa : p.order_id = a.id
    · simp [hpa]
    · simp [hpa, Bool.and_comm]

/-- C6.  Running the sweep twice in immediate succession is the same as
running it once — the second run's selection is empty because every order
cancelled by the first run is no longer `pending_payment`, so each expired
order is cancelled exactly once and the stock counters (indeed the entire
state) are identical to a single run; moreover a single run does cancel
every expired, proof-less order. -/
theorem c6_sweep_idempotent (now : Int) (db : DB) :
    sweepExpired now (sweepExpired now db) = sweepExpired now db ∧
    ∀ o ∈ db.orders, isExpired now o = true → proofSingle db o.id = false →
      { o with status := OrderStatus.cancelled }
        ∈ (sweepExpired now db).orders := by
  have horders : (sweepExpired now db).orders
      = db.orders.map fun p =>
          if includes ((sweepSelection now db).map Order.id) p.id
          then { p with status := OrderStatus.cancelled } else p :=
    sweepFold_orders (sweepSelection now db) db
  have hproofs : (sweepExpired now db).proofs
      = db.proofs.filter fun p =>
          !(includes ((sweepSelection now db).map Order.id) p.order_id) :=
    sweepFold_proofs (sweepSelection now db) db
  constructor
  · have hempty : sweepSelection now (sweepExpired now db) = [] := by
      apply List.filter_eq_nil_iff.mpr
      intro o' ho'
      rcases List.mem_filter.mp ho' with ⟨hmem, hexp⟩
      rw [horders] at hmem
      obtain ⟨o, ho, rfl⟩ := List.mem_map.mp hmem
      by_cases hin : includes ((sweepSelection now db).map Order.id) o.id
          = true
      · rw [if_pos hin] at hexp
        simp [isExpired] at hexp
      · rw [if_neg hin] at hexp ⊢
        have hPdb : proofSingle db o.id = true := by
          by_contra hF
          have hF' : proofSingle db o.id = false := by
            cases hPP : proofSingle db o.id
            · rfl
            · exact absurd hPP hF
          have hoL : o ∈ sweepSelection now db :=
            List.mem_filter.mpr
              ⟨List.mem_filter.mpr ⟨ho, hexp⟩, by simp [hF']⟩
          exact hin (includes_map_id_of_mem hoL)
        have hfalse : includes ((sweepSelection now db).map Order.id) o.id
            = false := by
          cases hb : includes ((sweepSelection now db).map Order.id) o.id
          · rfl
          · exact absurd hb hin
        have hlist : (sweepExpired now db).proofs.filter
              (fun p => p.order_id == o.id)
            = db.proofs.filter (fun p => p.order_id == o.id) := by
          rw [hproofs, List.filter_filter]
          apply List.filter_congr
          intro p _
          by_cases hp : p.order_id = o.id
          · simp [hp, hfalse]
          · simp [hp]
        have heq : proofSingle (sweepExpired now db) o.id
            = proofSingle db o.id := by
          unfold proofSingle
          rw [hlist]
        rw [heq, hPdb]
        simp
    show (sweepSelection now (sweepExpired now db)).foldl cancelOneExpired
        (sweepExpired now db) = sweepExpired now db
    rw [hempty]
    rfl
  · intro o ho hexp hp
    have hoL : o ∈ sweepSelection now db :=
      List.mem_filter.mpr ⟨List.mem_filter.mpr ⟨ho, hexp⟩, by simp [hp]⟩
    have hin := includes_map_id_of_mem hoL
    rw [horders]
    have himg : (fun p =>
        if includes ((sweepSelection now db).map Order.id) p.id
        then { p with status := OrderStatus.cancelled } else p) o
        = { o with status := OrderStatus.cancelled } := by
      dsimp only
      rw [if_pos hin]
    rw [← himg]
    exact List.mem_map_of_mem _ ho

/-- C6 witness: an order whose payment started at time 0, swept at time 100
(expired, no proof), is cancelled by the first run — and the whole state
after two consecutive runs equals the state after one. -/
theorem c6_witness :
    sweepExpired 100 (sweepExpired 100 c6Db) = sweepExpired 100 c6Db ∧
    { c6Order with status := OrderStatus.cancelled }
      ∈ (sweepExpired 100 c6Db).orders :=
  ⟨(c6_sweep_idempotent 100 c6Db).1,
   (c6_sweep_idempotent 100 c6Db).2 c6Order (by decide) (by decide)
     (by decide)⟩

end TutyJuicy
